import Mathlib

/-
Verification development for the ai-task-assistant repository.

Shallow embedding of the detection cascade (src/core/screen_detector.py,
src/core/yolo_detector.py, src/core/ui_element_detector.py), the task
planner and chat state (src/core/ai_chat.py), the guidance orchestrator
(src/core/app_manager.py) and the performance optimizer
(src/core/performance_optimizer.py).

Conventions of the embedding:
- Python floats are modelled as rationals (ℚ); Python ints as ℤ or Nat.
- Fallible external collaborators (HTTP requests, OpenCV calls, the
  language model client, json.loads) are modelled as `Except Unit`-valued
  inputs; a `.error` value stands for the call raising an exception.
- Qt signal emissions are modelled as explicit event lists returned
  alongside the new state.
-/

namespace TaskAssistant

/-! ## String utilities

Python's substring test `pat in s` (used by `_check_task_readiness` and
`_parse_steps_from_text`). -/

/-- Substring test on character lists: true iff `pat` occurs contiguously in the haystack. -/
def containsSub (pat : List Char) : List Char → Bool
  | [] => pat.isEmpty
  | c :: rest => pat.isPrefixOf (c :: rest) || containsSub pat rest

/-- Python `pat in hay` for strings. -/
def strContains (hay pat : String) : Bool :=
  containsSub pat.toList hay.toList

theorem containsSub_self (pat : List Char) : containsSub pat pat = true := by
  cases pat with
  | nil => rfl
  | cons c rest =>
    simp only [containsSub, Bool.or_eq_true]
    exact Or.inl (List.isPrefixOf_iff_prefix.mpr List.prefix_rfl)

theorem containsSub_append_left (pre pat hay : List Char)
    (h : containsSub pat hay = true) : containsSub pat (pre ++ hay) = true := by
  induction pre with
  | nil => simpa using h
  | cons c rest ih =>
    simp only [List.cons_append, containsSub, Bool.or_eq_true]
    exact Or.inr ih

/-- A string always contains any of its suffixes, in particular itself after a prefix. -/
theorem strContains_append_right (pre suf : String) :
    strContains (pre ++ suf) suf = true := by
  show containsSub suf.toList (pre.toList ++ suf.toList) = true
  exact containsSub_append_left _ _ _ (containsSub_self _)

/-- Single-quote character, used inside message strings ported from the source. -/
def sq : String := String.singleton (Char.ofNat 39)

/-! ## Geometry: boxes and overlap measures

`YOLOIconDetector._calculate_iou` and `UIElementDetector._calculate_overlap`. -/

/-- A detection box (x1, y1, x2, y2), as unpacked by the Python overlap routines. -/
structure Box where
  x1 : ℚ
  y1 : ℚ
  x2 : ℚ
  y2 : ℚ
deriving DecidableEq, Repr

/-- Embeds `YOLOIconDetector._calculate_iou`: intersection over union, 0 when disjoint
or when the union is non-positive. -/
def calculate_iou (b1 b2 : Box) : ℚ :=
  let x1i := max b1.x1 b2.x1
  let y1i := max b1.y1 b2.y1
  let x2i := min b1.x2 b2.x2
  let y2i := min b1.y2 b2.y2
  if x2i ≤ x1i ∨ y2i ≤ y1i then 0
  else
    let inter := (x2i - x1i) * (y2i - y1i)
    let area1 := (b1.x2 - b1.x1) * (b1.y2 - b1.y1)
    let area2 := (b2.x2 - b2.x1) * (b2.y2 - b2.y1)
    let uni := area1 + area2 - inter
    if 0 < uni then inter / uni else 0

/-- Embeds `UIElementDetector._calculate_overlap`: intersection over the smaller area. -/
def calculate_overlap (b1 b2 : Box) : ℚ :=
  let x1i := max b1.x1 b2.x1
  let y1i := max b1.y1 b2.y1
  let x2i := min b1.x2 b2.x2
  let y2i := min b1.y2 b2.y2
  if x2i ≤ x1i ∨ y2i ≤ y1i then 0
  else
    let inter := (x2i - x1i) * (y2i - y1i)
    let area1 := (b1.x2 - b1.x1) * (b1.y2 - b1.y1)
    let area2 := (b2.x2 - b2.x1) * (b2.y2 - b2.y1)
    let smaller := min area1 area2
    if 0 < smaller then inter / smaller else 0

theorem calculate_iou_comm (a b : Box) : calculate_iou a b = calculate_iou b a := by
  simp only [calculate_iou]
  rw [max_comm b.x1 a.x1, max_comm b.y1 a.y1, min_comm b.x2 a.x2, min_comm b.y2 a.y2,
    add_comm ((b.x2 - b.x1) * (b.y2 - b.y1)) ((a.x2 - a.x1) * (a.y2 - a.y1))]

theorem calculate_overlap_comm (a b : Box) : calculate_overlap a b = calculate_overlap b a := by
  simp only [calculate_overlap]
  rw [max_comm b.x1 a.x1, max_comm b.y1 a.y1, min_comm b.x2 a.x2, min_comm b.y2 a.y2,
    min_comm ((b.x2 - b.x1) * (b.y2 - b.y1)) ((a.x2 - a.x1) * (a.y2 - a.y1))]

/-! ## Detection records and the per-tier dedup filters

Candidates built inside `YOLOIconDetector` and `UIElementDetector` always
carry `label`, `box`, `confidence`, `action` and `type`, so they are
modelled as a structure with total fields.  (`type` is named `ty` because
`type` is reserved.) -/

structure Det where
  label : String
  box : Box
  confidence : ℚ
  action : String
  ty : String
deriving DecidableEq, Repr

/-- Stable descending sort by a rational key, mirroring Python's stable
`list.sort(key=..., reverse=True)`: an element is inserted after every
earlier element whose key is at least as large. -/
def insertDesc (key : Det → ℚ) (d : Det) : List Det → List Det
  | [] => [d]
  | e :: rest => if key e < key d then d :: e :: rest else e :: insertDesc key d rest

def sortByKeyDesc (key : Det → ℚ) (l : List Det) : List Det :=
  l.foldl (fun acc d => insertDesc key d acc) []

/-- Embeds `YOLOIconDetector._overlaps_with_existing`: true iff the candidate has
IoU strictly above 0.5 with some already-kept detection. -/
def overlaps_with_existing (d : Det) (existing : List Det) : Bool :=
  existing.any (fun e => (1 : ℚ)/2 < calculate_iou d.box e.box)

/-- Embeds `YOLOIconDetector._filter_detections`: sort by confidence descending,
greedily drop candidates overlapping a kept one, truncate to 10. -/
def filter_detections (ds : List Det) : List Det :=
  if ds.isEmpty then []
  else
    let sorted := sortByKeyDesc (fun d => d.confidence) ds
    let filtered := sorted.foldl
      (fun acc d => if overlaps_with_existing d acc then acc else acc ++ [d]) []
    filtered.take 10

/-- Embeds `UIElementDetector._filter_and_rank`'s type priority table. -/
def type_priority (ty : String) : ℚ :=
  if ty = "button" then 5
  else if ty = "text_field" then 4
  else if ty = "window_control" then 3
  else if ty = "link" then 2
  else if ty = "icon" then 1
  else 0

/-- Embeds `UIElementDetector._overlaps_significantly`: overlap ratio strictly above 0.3. -/
def overlaps_significantly (d : Det) (existing : List Det) : Bool :=
  existing.any (fun e => (3 : ℚ)/10 < calculate_overlap d.box e.box)

/-- Embeds `UIElementDetector._filter_and_rank`: sort by priority·confidence
descending, greedily drop overlapping candidates, truncate to 8. -/
def filter_and_rank (ds : List Det) : List Det :=
  if ds.isEmpty then []
  else
    let sorted := sortByKeyDesc (fun d => type_priority d.ty * d.confidence) ds
    let filtered := sorted.foldl
      (fun acc d => if overlaps_significantly d acc then acc else acc ++ [d]) []
    filtered.take 8

/-- Invariant of the greedy keep-if-no-overlap loop shared by both filters:
if rejecting is complete (a candidate kept against `acc` is related to every
member of `acc`), then pairwise relatedness of the accumulator is preserved. -/
theorem foldl_greedy_pairwise {α : Type} (R : α → α → Prop) (over : α → List α → Bool)
    (hover : ∀ d acc, over d acc = false → ∀ e ∈ acc, R e d) :
    ∀ (l acc : List α), acc.Pairwise R →
      (l.foldl (fun acc d => if over d acc then acc else acc ++ [d]) acc).Pairwise R := by
  intro l
  induction l with
  | nil => intro acc h; exact h
  | cons d rest ih =>
    intro acc h
    simp only [List.foldl_cons]
    by_cases hc : over d acc = true
    · rw [hc]; simpa using ih acc h
    · rw [Bool.not_eq_true] at hc
      rw [hc]
      simp only [if_neg Bool.false_ne_true]
      refine ih _ ?_
      rw [List.pairwise_append]
      refine ⟨h, by simp, ?_⟩
      intro a ha b hb
      rw [List.mem_singleton] at hb
      subst hb
      exact hover _ acc hc a ha

/-- Every pair surviving the YOLO filter has IoU at most 0.5. -/
theorem filter_detections_pairwise (ds : List Det) :
    (filter_detections ds).Pairwise (fun a b => calculate_iou a.box b.box ≤ (1 : ℚ)/2) := by
  unfold filter_detections
  by_cases h : ds.isEmpty
  · simp [h]
  · rw [if_neg h]
    refine List.Pairwise.sublist (List.take_sublist _ _) ?_
    refine foldl_greedy_pairwise _ overlaps_with_existing ?_ _ [] (List.Pairwise.nil)
    intro d acc hfalse e he
    unfold overlaps_with_existing at hfalse
    rw [List.any_eq_false] at hfalse
    have := hfalse e he
    simp only [decide_eq_true_eq] at this
    rw [calculate_iou_comm]
    exact not_lt.mp this

/-- Every pair surviving the advanced-UI filter has overlap ratio at most 0.3. -/
theorem filter_and_rank_pairwise (ds : List Det) :
    (filter_and_rank ds).Pairwise (fun a b => calculate_overlap a.box b.box ≤ (3 : ℚ)/10) := by
  unfold filter_and_rank
  by_cases h : ds.isEmpty
  · simp [h]
  · rw [if_neg h]
    refine List.Pairwise.sublist (List.take_sublist _ _) ?_
    refine foldl_greedy_pairwise _ overlaps_significantly ?_ _ [] (List.Pairwise.nil)
    intro d acc hfalse e he
    unfold overlaps_significantly at hfalse
    rw [List.any_eq_false] at hfalse
    have := hfalse e he
    simp only [decide_eq_true_eq] at this
    rw [calculate_overlap_comm]
    exact not_lt.mp this

/-! ## Detection cascade (`ScreenDetector`)

Tier outputs reaching `ScreenDetector.detect_screen_elements` are
dict-shaped records whose fields may be missing (in particular those coming
from the cloud service), so they are modelled with `Option` fields and a
box given as a raw number list, as `_process_detections` validates it. -/

structure RawDet where
  label : Option String
  box : Option (List ℚ)
  action : Option String
  confidence : Option ℚ
deriving DecidableEq, Repr

/-- A record emitted by `ScreenDetector._process_detections`: an id has been
assigned, the label/box presence has been checked and a default action filled in. -/
structure ProcDet where
  id : String
  label : String
  box : List ℚ
  action : String
deriving DecidableEq, Repr

/-- View a raw number-list box through the 4-tuple unpacking used by the
overlap routines (only ever applied to validated length-4 boxes). -/
def boxOfList (l : List ℚ) : Box :=
  ⟨l.getD 0 0, l.getD 1 0, l.getD 2 0, l.getD 3 0⟩

/-- One iteration of the `_process_detections` loop: skip when `box` or
`label` is missing, assign `detection_i` as the id, default the action to
`Click <label>`, and keep the record only if the box has at least 4
(numeric) coordinates. -/
def processOne (i : Nat) (d : RawDet) : Option ProcDet :=
  match d.box, d.label with
  | some b, some lab =>
    let act := d.action.getD ("Click " ++ lab)
    if 4 ≤ b.length then some ⟨"detection_" ++ toString i, lab, b, act⟩ else none
  | _, _ => none

/-- Embeds `ScreenDetector._process_detections` with `max_detections = 10`:
truncate, then enumerate and validate. -/
def process_detections (max_detections : Nat) (ds : List RawDet) : List ProcDet :=
  ((ds.take max_detections).enum).filterMap (fun p => processOne p.1 p.2)

/-- The four tier results available to one cascade run (each already the
output of that tier's own boundary, see `detect_with_cloud` and
`detect_ui_elements` below).  `basicLocal` is the `LocalUIDetector` fallback. -/
structure TierOutputs where
  cloud : List RawDet
  ui : List RawDet
  yolo : List RawDet
  basicLocal : List RawDet
deriving DecidableEq, Repr

/-- Which tiers a cascade run invoked. -/
structure Invoked where
  cloud : Bool
  ui : Bool
  yolo : Bool
  basicLocal : Bool
deriving DecidableEq, Repr

/-- Signals of `ScreenDetector`. -/
inductive Sig where
  | detections_ready (ds : List ProcDet)
  | detection_failed (msg : String)
deriving DecidableEq, Repr

/-- Embeds `ScreenDetector.detect_screen_elements`.  The body mirrors the Python
control flow: capture, then cloud, then (when empty) advanced UI, then
(when still empty) extending the empty list with the YOLO results, then
(when still empty) the basic local fallback; the winner is processed and
emitted.  A capture failure raises inside the `try` and the handler emits
`detection_failed` and returns the empty list.  Alongside the result and
the emitted signals, the function records which tiers were invoked. -/
def detect_screen_elements (capture_ok : Bool) (t : TierOutputs) :
    List ProcDet × List Sig × Invoked :=
  if capture_ok then
    let d1 := t.cloud
    let uiInv := d1.isEmpty
    let d2 := if d1.isEmpty then t.ui else d1
    let yoloInv := d2.isEmpty
    let d3 := if d2.isEmpty then d2 ++ t.yolo else d2
    let locInv := d3.isEmpty
    let d4 := if d3.isEmpty then t.basicLocal else d3
    let processed := process_detections 10 d4
    (processed, [Sig.detections_ready processed], ⟨true, uiInv, yoloInv, locInv⟩)
  else
    ([], [Sig.detection_failed "Failed to capture screen"], ⟨false, false, false, false⟩)

/-- Response of the remote detection service. -/
structure CloudResp where
  status_code : ℤ
  detections : List RawDet
deriving DecidableEq, Repr

/-- Embeds `ScreenDetector._detect_with_cloud`: a `.error` input stands for the
HTTP call raising (timeout, connection error, any exception); each handler
returns the empty list.  A non-200 status also yields the empty list. -/
def detect_with_cloud (net : Except Unit CloudResp) : List RawDet :=
  match net with
  | .error _ => []
  | .ok r => if r.status_code = 200 then r.detections else []

/-- Embeds `UIElementDetector.detect_ui_elements`: the five stage calls run inside
one `try` that appends each stage's candidates to a local list; an
exception in a stage is caught by the single handler, which falls through
to returning whatever was accumulated so far — the ranking/dedup filter
only runs when every stage succeeded. -/
def detect_ui_elements (buttons text_fields icons links window_controls :
    Except Unit (List Det)) : List Det :=
  match buttons with
  | .error _ => []
  | .ok b =>
    match text_fields with
    | .error _ => b
    | .ok tf =>
      match icons with
      | .error _ => b ++ tf
      | .ok ic =>
        match links with
        | .error _ => b ++ tf ++ ic
        | .ok lk =>
          match window_controls with
          | .error _ => b ++ tf ++ ic ++ lk
          | .ok wc => filter_and_rank (b ++ tf ++ ic ++ lk ++ wc)

/-- Embeds `YOLOIconDetector.detect_icons`: the three sub-detectors catch their own
exceptions internally, so the tier concatenates their candidate lists and
applies the dedup filter. -/
def detect_icons (yolo_raw template_raw color_raw : List Det) : List Det :=
  filter_detections (yolo_raw ++ template_raw ++ color_raw)

/-! ## Task step planner (`AIChatManager.generate_task_steps` and
`AIChatManager._parse_steps_from_text`) -/

structure TaskStep where
  step_number : Nat
  action : String
  target : String
  description : String
  expected_result : String
deriving DecidableEq, Repr

/-- The default one-element plan of `_parse_steps_from_text`. -/
def defaultStep : TaskStep :=
  ⟨1, "click", "relevant UI element", "Follow the visual guidance with RED SQUARES",
    "Complete the task step by step"⟩

/-- The action-verb / step markers that start a new step in the text fallback. -/
def stepIndicators : List String := ["step", "click", "open", "type", "navigate"]

/-- Loop state of `_parse_steps_from_text`: appended steps, the step under
construction, and the next step number. -/
structure ParseAcc where
  steps : List TaskStep
  cur : Option TaskStep
  num : Nat
deriving DecidableEq, Repr

/-- One line of the `_parse_steps_from_text` loop. -/
def parseLine (acc : ParseAcc) (line0 : String) : ParseAcc :=
  let line := line0.trim
  if line = "" then acc
  else if stepIndicators.any (fun ind => strContains line.toLower ind) then
    { steps := acc.steps ++ acc.cur.toList,
      cur := some ⟨acc.num, "click", "UI element", line, "Continue to next step"⟩,
      num := acc.num + 1 }
  else if acc.cur.isSome ∧ 10 < line.length then
    match acc.cur with
    | some c => { acc with cur := some { c with description := c.description ++ " " ++ line } }
    | none => acc
  else acc

/-- Embeds `AIChatManager._parse_steps_from_text`: line-oriented heuristic fallback. -/
def parse_steps_from_text (text : String) : List TaskStep :=
  let acc := (text.splitOn "\n").foldl parseLine ⟨[], none, 1⟩
  let steps := acc.steps ++ acc.cur.toList
  if steps = [] then [defaultStep] else steps

/-- What `json.loads` can hand back to the planner: an array that converts
to a step list, or some other JSON value (Python would return that value
as-is from line 452 of ai_chat.py). -/
inductive PyJson where
  | arr (steps : List TaskStep)
  | other
deriving DecidableEq, Repr

/-- Result of `generate_task_steps`: a step list, or a non-list JSON value
passed through verbatim by the whole-response parse. -/
inductive PlanOut where
  | steps (l : List TaskStep)
  | nonList
deriving DecidableEq, Repr

def planOfJson : PyJson → PlanOut
  | .arr l => .steps l
  | .other => .nonList

/-- Python-stdlib collaborators of the planner: `re.search` over the three
JSON-block patterns, the escape-repair regex, and `json.loads` (a `.error`
result stands for `json.JSONDecodeError`). -/
structure PlanParsers where
  extract : String → Option String
  fixEscapes : String → String
  parseJson : String → Except Unit PyJson

/-- Embeds `AIChatManager.generate_task_steps`.  A `.error` response stands for the
chat-completion call raising: the outer handler returns the empty list.
Otherwise the structured attempts run inside the inner `try`: parse an
extracted block (returned when it is a list with at least one element),
else parse the whole stripped response and return whatever JSON value that
yields; if a `json.loads` raises the handler falls back to
`_parse_steps_from_text`. -/
def generate_task_steps (P : PlanParsers) (resp : Except Unit String) : PlanOut :=
  match resp with
  | .error _ => .steps []
  | .ok raw =>
    let plan_text := raw.trim
    let attempt : Except Unit PlanOut :=
      match P.extract plan_text with
      | some ej =>
        let cleaned := P.fixEscapes (ej.replace "\n" " ")
        match P.parseJson cleaned with
        | .error e => .error e
        | .ok (.arr l) =>
          if 0 < l.length then .ok (.steps l)
          else planOfJson <$> P.parseJson plan_text
        | .ok .other => planOfJson <$> P.parseJson plan_text
      | none => planOfJson <$> P.parseJson plan_text
    match attempt with
    | .ok out => out
    | .error _ => .steps (parse_steps_from_text plan_text)

/-- Parsers that always fail, modelling a response no structured attempt can parse. -/
def noParsers : PlanParsers :=
  ⟨fun _ => none, id, fun _ => .error ()⟩

/-! ## Chat state machine (`AIChatManager`) -/

structure Msg where
  role : String
  content : String
deriving DecidableEq, Repr

structure ChatState where
  conversation_history : List Msg
  current_task : String
  task_steps : List TaskStep
  current_step_index : Nat
  task_ready_emitted : Bool
deriving DecidableEq, Repr

/-- Emissions of `AIChatManager`. -/
inductive ChatEmit where
  | message_received (role content : String)
  | task_ready (desc : String)
deriving DecidableEq, Repr

/-- The step-advance message of `handle_user_action` (Python f-string
`Great! Now let's move to step ...`). -/
def advanceMsg (stepNumberShown : Nat) (desc : String) : String :=
  "Great! Now let" ++ sq ++ "s move to step " ++ toString stepNumberShown ++ ":\n" ++ desc

/-- Embeds `AIChatManager.handle_user_action`.  `dynamicResp` models the
chat-completion call used for dynamic guidance (`.error` = the call
raising; the handler only logs).  The click is appended to the history;
when pre-planned steps remain the index advances by one and the new step's
description is surfaced, otherwise dynamic guidance is requested. -/
def handle_user_action (dynamicResp : Except Unit String) (s : ChatState)
    (elementLabel : Option String) : ChatState × List ChatEmit :=
  let lab := elementLabel.getD "element"
  let s1 := { s with conversation_history :=
    s.conversation_history ++ [⟨"user", "User clicked on: " ++ lab⟩] }
  if s1.task_steps ≠ [] ∧ s1.current_step_index < s1.task_steps.length - 1 then
    let idx := s1.current_step_index + 1
    let s2 := { s1 with current_step_index := idx }
    let desc := (s2.task_steps.getD idx defaultStep).description
    (s2, [.message_received "assistant" (advanceMsg (idx + 1) desc)])
  else
    match dynamicResp with
    | .ok g => (s1, [.message_received "assistant" ("Great! " ++ g)])
    | .error _ => (s1, [])

/-- The fixed ready-phrase list of `_check_task_readiness`. -/
def ready_phrases : List String :=
  ["let" ++ sq ++ "s start", "let" ++ sq ++ "s begin", "ready to start", "ready to begin",
   "i can help", "i" ++ sq ++ "ll help", "i will help", "let me help", "ready to guide"]

/-- Embeds `AIChatManager._extract_task_description`: the first user message longer
than 20 characters, truncated to 200 characters, else `User task`. -/
def extract_task_description (hist : List Msg) : String :=
  match hist.find? (fun m => m.role = "user" ∧ 20 < m.content.length) with
  | some m => m.content.take 200
  | none => "User task"

/-- Embeds `AIChatManager._check_task_readiness`.  `gen` is the composite planning
collaborator (`generate_task_steps` applied to the live parsers and chat
client).  The `task_ready_emitted` flag models the `hasattr` guard: absent
(false) until the first emission sets it. -/
def check_task_readiness (gen : String → List TaskStep) (s : ChatState) :
    ChatState × List ChatEmit :=
  let userMsgs := s.conversation_history.filter (fun m => m.role = "user")
  let aiMsgs := s.conversation_history.filter (fun m => m.role = "assistant")
  if 1 ≤ userMsgs.length ∧ 1 ≤ aiMsgs.length ∧ s.task_ready_emitted = false then
    let lastAi := ((aiMsgs.getLast?).getD ⟨"assistant", ""⟩).content.toLower
    if ready_phrases.any (fun p => strContains lastAi p) then
      let desc := extract_task_description s.conversation_history
      if desc ≠ "" then
        ({ s with current_task := desc, task_steps := gen desc, current_step_index := 0,
                  task_ready_emitted := true },
         [.task_ready desc])
      else (s, [])
    else (s, [])
  else (s, [])

/-- One `send_message` round as far as readiness is concerned: the user
message and the AI response are appended to the history, then
`_check_task_readiness` runs. -/
def chat_round (gen : String → List TaskStep) (s : ChatState) (userMsg aiResp : String) :
    ChatState × List ChatEmit :=
  let s1 := { s with conversation_history :=
    s.conversation_history ++ [⟨"user", userMsg⟩, ⟨"assistant", aiResp⟩] }
  check_task_readiness gen s1

/-- Run a sequence of chat rounds, collecting all emissions. -/
def run_rounds (gen : String → List TaskStep) (s : ChatState) :
    List (String × String) → ChatState × List ChatEmit
  | [] => (s, [])
  | (u, a) :: rest =>
    let (s1, e1) := chat_round gen s u a
    let (s2, e2) := run_rounds gen s1 rest
    (s2, e1 ++ e2)

/-- Count the `task_ready` emissions in an emission list. -/
def countTaskReady (es : List ChatEmit) : Nat :=
  es.countP (fun e => match e with | .task_ready _ => true | _ => false)

/-! ## Performance optimizer (`PerformanceOptimizer._adjust_detection_interval`) -/

/-- Embeds `PerformanceOptimizer._adjust_detection_interval`.  The input models
`self.resource_usage.get('system_cpu', 50)`: `none` when the key is absent.
The final floor check mirrors the source (it can never fire, all branch
values being at least 4000). -/
def adjust_detection_interval (system_cpu : Option ℚ) : ℤ :=
  let cpu_usage := system_cpu.getD 50
  let di : ℤ := if 70 < cpu_usage then 8000 else if 50 < cpu_usage then 6000 else 4000
  if di < 4000 then 4000 else di

/-! ## Guidance orchestrator (`AppManager`) -/

structure TimerState where
  running : Bool
  interval : ℤ
deriving DecidableEq, Repr

structure AppState where
  current_task : String
  is_guidance_active : Bool
  is_paused : Bool
  detection_timer : TimerState
  overlays_visible : Bool
  chat : ChatState
  optimizer_interval : ℤ
deriving DecidableEq, Repr

inductive AppEmit where
  | guidance_paused
  | guidance_resumed
  | task_completed
deriving DecidableEq, Repr

/-- Embeds `PerformanceOptimizer.get_optimal_detection_interval` as seen from the
orchestrator: the optimizer's current interval field. -/
def get_optimal_detection_interval (s : AppState) : ℤ := s.optimizer_interval

/-- Embeds `AppManager.pause_guidance`: guarded by active-and-not-paused; stops the
cycle timer, hides all overlays, emits `guidance_paused`; everything else
(in particular the chat manager's task state) is untouched. -/
def pause_guidance (s : AppState) : AppState × List AppEmit :=
  if s.is_guidance_active = true ∧ s.is_paused = false then
    ({ s with is_paused := true,
              detection_timer := { s.detection_timer with running := false },
              overlays_visible := false },
     [.guidance_paused])
  else (s, [])

/-- Embeds `AppManager.resume_guidance`: guarded by active-and-paused; restarts the
timer at the optimizer's current interval and emits `guidance_resumed`. -/
def resume_guidance (s : AppState) : AppState × List AppEmit :=
  if s.is_guidance_active = true ∧ s.is_paused = true then
    ({ s with is_paused := false,
              detection_timer := { running := true,
                                   interval := get_optimal_detection_interval s } },
     [.guidance_resumed])
  else (s, [])

/-- Externally visible actions of the timeout-recovery path, in program order. -/
inductive MgrEv where
  | hide_all_overlays
  | show_instruction_panel (msg : String)
  | timer_stop
  | optimizer_stop
  | memory_stop
  | chat_normal_mode
  | task_completed_emit
  | schedule_detection (delayMs : ℤ)
  | schedule_restart (delayMs : ℤ)
deriving DecidableEq, Repr

/-- Is the event the scheduling of a detection-cycle retry (direct retry or
full restart)? -/
def isRetrySchedule : MgrEv → Bool
  | .schedule_detection _ => true
  | .schedule_restart _ => true
  | _ => false

/-- Embeds `AppManager.stop_guidance` as an action trace; `hideOk` is whether the
overlay collaborator's `hide_all_overlays` call returns normally.  On a
raise the single handler swallows the exception, so the trailing calls are
skipped. -/
def stop_guidance_trace (hideOk : Bool) : List MgrEv :=
  if hideOk then
    [.timer_stop, .optimizer_stop, .memory_stop, .hide_all_overlays,
     .chat_normal_mode, .task_completed_emit]
  else
    [.timer_stop, .optimizer_stop, .memory_stop, .hide_all_overlays]

/-- Embeds `AppManager._detection_timeout_recovery` as an action trace.  `hideOk`
and `showOk` are whether the two overlay-collaborator calls return
normally; `stopHideOk` is the nested hide inside the fallback
`stop_guidance`.  The happy path hides all overlays, shows the recovery
notice and schedules `_perform_detection` after 5000 ms; if either call
raises, the handler runs `stop_guidance` and schedules a full
`start_guidance` restart after 1000 ms. -/
def detection_timeout_recovery_trace (hideOk showOk stopHideOk : Bool) : List MgrEv :=
  if hideOk then
    if showOk then
      [.hide_all_overlays,
       .show_instruction_panel "Detection timed out. Click anywhere to continue.",
       .schedule_detection 5000]
    else
      [.hide_all_overlays,
       .show_instruction_panel "Detection timed out. Click anywhere to continue."] ++
      stop_guidance_trace stopHideOk ++ [.schedule_restart 1000]
  else
    [.hide_all_overlays] ++ stop_guidance_trace stopHideOk ++ [.schedule_restart 1000]

/-! ## Claim theorems -/

/-- C1: for every screenshot, the detection cascade returns the (processed)
result of the first tier whose own filtered result is non-empty, in the
fixed order cloud, advanced UI, YOLO, basic local; a later tier is invoked
only if every earlier tier returned an empty set, and results are never
merged across tiers — the output is the processing of a single tier's list. -/
theorem claim1_cascade_tier_precedence (t : TierOutputs) :
    (t.cloud ≠ [] →
      detect_screen_elements true t =
        (process_detections 10 t.cloud,
         [Sig.detections_ready (process_detections 10 t.cloud)],
         ⟨true, false, false, false⟩)) ∧
    (t.cloud = [] → t.ui ≠ [] →
      detect_screen_elements true t =
        (process_detections 10 t.ui,
         [Sig.detections_ready (process_detections 10 t.ui)],
         ⟨true, true, false, false⟩)) ∧
    (t.cloud = [] → t.ui = [] → t.yolo ≠ [] →
      detect_screen_elements true t =
        (process_detections 10 t.yolo,
         [Sig.detections_ready (process_detections 10 t.yolo)],
         ⟨true, true, true, false⟩)) ∧
    (t.cloud = [] → t.ui = [] → t.yolo = [] →
      detect_screen_elements true t =
        (process_detections 10 t.basicLocal,
         [Sig.detections_ready (process_detections 10 t.basicLocal)],
         ⟨true, true, true, true⟩)) := by
  obtain ⟨c, u, y, l⟩ := t
  refine ⟨?_, ?_, ?_, ?_⟩
  · intro hc
    cases c with
    | nil => exact absurd rfl hc
    | cons d cs => rfl
  · intro hc hu
    subst hc
    cases u with
    | nil => exact absurd rfl hu
    | cons d us => rfl
  · intro hc hu hy
    subst hc; subst hu
    cases y with
    | nil => exact absurd rfl hy
    | cons d ys => rfl
  · intro hc hu hy
    subst hc; subst hu; subst hy
    rfl

/-- C1 witness: a run with a non-empty cloud tier and non-empty later tiers
returns exactly the processed cloud result and invokes no later tier. -/
theorem claim1_witness :
    detect_screen_elements true
        ⟨[⟨some "a", some [0, 0, 1, 1], none, some 1⟩],
         [⟨some "b", some [5, 5, 6, 6], none, some 1⟩], [], []⟩ =
      (process_detections 10 [⟨some "a", some [0, 0, 1, 1], none, some 1⟩],
       [Sig.detections_ready (process_detections 10 [⟨some "a", some [0, 0, 1, 1], none, some 1⟩])],
       ⟨true, false, false, false⟩) :=
  (claim1_cascade_tier_precedence _).1 (by simp)

/-- C2 (amended): the dedup invariant holds only within the two tiers that
filter at all — every pair kept by the YOLO filter has IoU at most 0.5, and
every pair kept by the advanced-UI filter has overlap ratio (intersection
over the smaller area) at most 0.3. -/
theorem claim2_within_tier_dedup :
    (∀ ds : List Det,
      (filter_detections ds).Pairwise (fun a b => calculate_iou a.box b.box ≤ (1 : ℚ)/2)) ∧
    (∀ ds : List Det,
      (filter_and_rank ds).Pairwise (fun a b => calculate_overlap a.box b.box ≤ (3 : ℚ)/10)) :=
  ⟨filter_detections_pairwise, filter_and_rank_pairwise⟩

/-- A cloud-tier record for the C2 counterexample. -/
def cloudDup : RawDet := ⟨some "button", some [0, 0, 10, 10], some "Click the button", some (9/10)⟩

/-- Tier outputs in which the cloud service reports the same box twice. -/
def dupTiers : TierOutputs := ⟨[cloudDup, cloudDup], [], [], []⟩

/-- The two processed records the duplicated cloud response turns into. -/
def dupProc0 : ProcDet := ⟨"detection_0", "button", [0, 0, 10, 10], "Click the button"⟩

def dupProc1 : ProcDet := ⟨"detection_1", "button", [0, 0, 10, 10], "Click the button"⟩

/-- C2 counterexample: the cloud tier applies no IoU dedup and
`_process_detections` merges nothing, so a cascade result can contain two
members with IoU 1 ≥ 0.5 — the claimed DetectionSet invariant fails for
sets produced by the cloud tier (and likewise the basic local tier). -/
theorem claim2_counterexample :
    (detect_screen_elements true dupTiers).1 = [dupProc0, dupProc1] ∧
    (1 : ℚ)/2 ≤ calculate_iou (boxOfList dupProc0.box) (boxOfList dupProc1.box) := by
  constructor
  · rfl
  · norm_num [dupProc0, dupProc1, boxOfList, calculate_iou]

/-- C7 (amended): no tier raises past its boundary and the cascade never
raises: the cloud tier converts every internal failure (timeout, connection
error, any exception: a `.error` input) and every non-200 response to the
empty list; the advanced-UI tier, however, returns the candidates
accumulated before the failing stage — possibly non-empty and unfiltered;
and when all tiers return empty sets the cascade returns an empty
DetectionSet with the normal results signal, not an error. -/
theorem claim7_tier_boundaries :
    (∀ e : Unit, detect_with_cloud (.error e) = []) ∧
    (∀ r : CloudResp, r.status_code ≠ 200 → detect_with_cloud (.ok r) = []) ∧
    (∀ b i l w, detect_ui_elements (.ok b) (.error ()) i l w = b) ∧
    (∀ t : TierOutputs, t.cloud = [] → t.ui = [] → t.yolo = [] → t.basicLocal = [] →
      detect_screen_elements true t =
        ([], [Sig.detections_ready []], ⟨true, true, true, true⟩)) := by
  refine ⟨fun e => rfl, ?_, fun b i l w => rfl, ?_⟩
  · intro r hr
    show (if r.status_code = 200 then r.detections else []) = []
    rw [if_neg hr]
  · intro t hc hu hy hl
    obtain ⟨c, u, y, l⟩ := t
    simp only at hc hu hy hl
    subst hc; subst hu; subst hy; subst hl
    rfl

/-- C7 witness: a non-200 cloud response yields the empty list, and the
all-empty cascade yields the empty set with the normal ready signal. -/
theorem claim7_witness :
    detect_with_cloud (.ok ⟨500, [⟨some "x", some [0, 0, 1, 1], none, none⟩]⟩) = [] ∧
    detect_screen_elements true ⟨[], [], [], []⟩ =
      ([], [Sig.detections_ready []], ⟨true, true, true, true⟩) :=
  ⟨claim7_tier_boundaries.2.1 _ (by norm_num),
   claim7_tier_boundaries.2.2.2 ⟨[], [], [], []⟩ rfl rfl rfl rfl⟩

/-- A candidate produced by the advanced-UI tier's button stage. -/
def uiButton : Det := ⟨"button", ⟨0, 0, 10, 10⟩, 7/10, "Click button", "button"⟩

/-- C7 counterexample: when a later stage of the advanced-UI tier raises
after the button stage accumulated a candidate, the tier returns that
non-empty (and unfiltered) partial list — its internal failure is NOT
converted to an empty result list as the claim states. -/
theorem claim7_counterexample :
    detect_ui_elements (.ok [uiButton]) (.error ()) (.ok []) (.ok []) (.ok []) = [uiButton] ∧
    [uiButton] ≠ ([] : List Det) :=
  ⟨rfl, by simp⟩

/-- The text-heuristic fallback always yields at least one step. -/
theorem parse_steps_from_text_length (text : String) :
    1 ≤ (parse_steps_from_text text).length := by
  unfold parse_steps_from_text
  set acc := (text.splitOn "\n").foldl parseLine ⟨[], none, 1⟩ with hacc
  by_cases h : acc.steps ++ acc.cur.toList = []
  · simp [h]
  · rw [if_neg h]
    exact Nat.one_le_iff_ne_zero.mpr (fun hz => h (List.eq_nil_of_length_eq_zero hz))

/-- C3 (amended): when the generation collaborator returns text on which
every structured (JSON) parse attempt fails, the planner returns the
text-fallback's list, which has at least one step; but when the
collaborator call itself raises, `generate_task_steps` returns the empty
list (see the counterexample). -/
theorem claim3_planner_fallback (P : PlanParsers) (raw : String)
    (hfail : ∀ s, P.parseJson s = .error ()) :
    generate_task_steps P (.ok raw) = .steps (parse_steps_from_text raw.trim) ∧
    1 ≤ (parse_steps_from_text raw.trim).length := by
  refine ⟨?_, parse_steps_from_text_length _⟩
  unfold generate_task_steps
  cases hx : P.extract raw.trim with
  | none => simp [hx, hfail, Except.map]
  | some ej => simp [hx, hfail]

/-- C3 counterexample: if the chat-completion call raises, the outer
handler of `generate_task_steps` returns the empty step list — not a
one-element default list as the claim states. -/
theorem claim3_counterexample :
    generate_task_steps noParsers (.error ()) = .steps [] := rfl

/-- C3 witness: a concrete unparseable response still yields the fallback
list, which is non-empty. -/
theorem claim3_witness :
    generate_task_steps noParsers (.ok "step one") =
      .steps (parse_steps_from_text (String.trim "step one")) ∧
    1 ≤ (parse_steps_from_text (String.trim "step one")).length :=
  claim3_planner_fallback noParsers "step one" (fun _ => rfl)

/-- The numbering invariant maintained by the `_parse_steps_from_text` loop. -/
def parseInv (acc : ParseAcc) : Prop :=
  (acc.steps ++ acc.cur.toList).map TaskStep.step_number =
    List.range' 1 (acc.steps ++ acc.cur.toList).length ∧
  acc.num = (acc.steps ++ acc.cur.toList).length + 1

theorem range'_one_concat (n : ℕ) : List.range' 1 (n + 1) = List.range' 1 n ++ [n + 1] := by
  rw [List.range'_concat]
  simp [Nat.add_comm]

theorem parseLine_inv (acc : ParseAcc) (line : String) (h : parseInv acc) :
    parseInv (parseLine acc line) := by
  obtain ⟨steps, cur, num⟩ := acc
  obtain ⟨h1, h2⟩ := h
  simp only at h1 h2
  unfold parseLine
  by_cases he : line.trim = ""
  · rw [if_pos he]; exact ⟨h1, h2⟩
  · rw [if_neg he]
    by_cases hind : (stepIndicators.any fun ind => strContains (line.trim).toLower ind) = true
    · rw [if_pos hind]
      unfold parseInv
      simp only [Option.toList_some]
      constructor
      · rw [List.map_append, h1]
        simp only [List.length_append, List.length_singleton, List.map_cons, List.map_nil]
        rw [h2, range'_one_concat]
        simp
      · simp only [List.length_append, List.length_singleton]
        rw [h2]
        simp
    · rw [if_neg hind]
      by_cases hcont : cur.isSome = true ∧ 10 < line.trim.length
      · rw [if_pos hcont]
        cases cur with
        | none => simp at hcont
        | some c =>
          unfold parseInv
          simp only [Option.toList_some] at h1 h2 ⊢
          constructor
          · simp only [List.map_append, List.length_append, List.map_cons, List.map_nil,
              List.length_singleton] at h1 ⊢
            exact h1
          · simpa using h2
      · rw [if_neg hcont]; exact ⟨h1, h2⟩

theorem foldl_parseLine_inv (lines : List String) (acc : ParseAcc) (h : parseInv acc) :
    parseInv (lines.foldl parseLine acc) := by
  induction lines generalizing acc with
  | nil => exact h
  | cons l rest ih => exact ih _ (parseLine_inv acc l h)

/-- C9: for every collaborator response whose structured parse fails, the
text-heuristic fallback produces steps whose `step_number` fields start at 1
and increase by exactly 1: the numbers are `[1, 2, ..., n]`. -/
theorem claim9_fallback_numbering (text : String) :
    (parse_steps_from_text text).map TaskStep.step_number =
      List.range' 1 (parse_steps_from_text text).length := by
  unfold parse_steps_from_text
  have hinv := foldl_parseLine_inv (text.splitOn "\n") ⟨[], none, 1⟩ ⟨rfl, rfl⟩
  set acc := (text.splitOn "\n").foldl parseLine ⟨[], none, 1⟩ with hacc
  by_cases h : acc.steps ++ acc.cur.toList = []
  · rw [if_pos h]; rfl
  · rw [if_neg h]
    exact hinv.1

/-- C4: the recomputed detection interval is always one of 4000/6000/8000 ms,
never below the 4000 ms floor, equals 8000 above the high threshold 70 and
6000 above the medium threshold 50, and is monotonically non-decreasing in
the load. -/
theorem claim4_interval_step_function :
    (∀ o : Option ℚ, adjust_detection_interval o = 4000 ∨ adjust_detection_interval o = 6000 ∨
      adjust_detection_interval o = 8000) ∧
    (∀ o : Option ℚ, 4000 ≤ adjust_detection_interval o) ∧
    (∀ c : ℚ, 70 < c → adjust_detection_interval (some c) = 8000) ∧
    (∀ c : ℚ, 50 < c → c ≤ 70 → adjust_detection_interval (some c) = 6000) ∧
    (∀ c : ℚ, c ≤ 50 → adjust_detection_interval (some c) = 4000) ∧
    (∀ c₁ c₂ : ℚ, c₁ ≤ c₂ →
      adjust_detection_interval (some c₁) ≤ adjust_detection_interval (some c₂)) := by
  have h8 : ∀ c : ℚ, 70 < c → adjust_detection_interval (some c) = 8000 := by
    intro c hc
    unfold adjust_detection_interval
    simp only [Option.getD_some]
    rw [if_pos hc]
    norm_num
  have h6 : ∀ c : ℚ, 50 < c → c ≤ 70 → adjust_detection_interval (some c) = 6000 := by
    intro c hc1 hc2
    unfold adjust_detection_interval
    simp only [Option.getD_some]
    rw [if_neg (not_lt.mpr hc2), if_pos hc1]
    norm_num
  have h4 : ∀ c : ℚ, c ≤ 50 → adjust_detection_interval (some c) = 4000 := by
    intro c hc
    unfold adjust_detection_interval
    simp only [Option.getD_some]
    rw [if_neg (not_lt.mpr (hc.trans (by norm_num))), if_neg (not_lt.mpr hc)]
    norm_num
  have hcases : ∀ o : Option ℚ, adjust_detection_interval o = 4000 ∨
      adjust_detection_interval o = 6000 ∨ adjust_detection_interval o = 8000 := by
    intro o
    simp only [adjust_detection_interval]
    split_ifs <;> norm_num
  refine ⟨hcases, ?_, h8, h6, h4, ?_⟩
  · intro o
    rcases hcases o with h | h | h <;> rw [h] <;> norm_num
  · intro c₁ c₂ hle
    rcases lt_or_le 70 c₂ with hB | hB
    · rw [h8 c₂ hB]
      rcases hcases (some c₁) with h | h | h <;> rw [h] <;> norm_num
    · rcases lt_or_le 50 c₂ with hC | hC
      · rw [h6 c₂ hC hB]
        rcases le_or_lt c₁ 50 with hD | hD
        · rw [h4 c₁ hD]; norm_num
        · rw [h6 c₁ hD (hle.trans hB)]
      · rw [h4 c₂ hC, h4 c₁ (hle.trans hC)]

/-- C4 witness: the three buckets and monotonicity at concrete loads. -/
theorem claim4_witness :
    adjust_detection_interval (some 80) = 8000 ∧
    adjust_detection_interval (some 60) = 6000 ∧
    adjust_detection_interval (some 30) = 4000 ∧
    adjust_detection_interval (some 30) ≤ adjust_detection_interval (some 80) :=
  ⟨claim4_interval_step_function.2.2.1 80 (by norm_num),
   claim4_interval_step_function.2.2.2.1 60 (by norm_num) (by norm_num),
   claim4_interval_step_function.2.2.2.2.1 30 (by norm_num),
   claim4_interval_step_function.2.2.2.2.2 30 80 (by norm_num)⟩

/-- C5: handling a user click with a non-empty step list keeps the index in
bounds: when the index is not yet the last one it advances by exactly one
and the new step's description is surfaced in the emitted message; when the
index is already the last one it does not change (dynamic guidance runs
instead); the step list itself is never modified. -/
theorem claim5_step_advance (resp : Except Unit String) (s : ChatState) (lab : Option String)
    (hne : s.task_steps ≠ []) (hidx : s.current_step_index < s.task_steps.length) :
    ((handle_user_action resp s lab).1.task_steps = s.task_steps) ∧
    ((handle_user_action resp s lab).1.current_step_index < s.task_steps.length) ∧
    (s.current_step_index + 1 < s.task_steps.length →
      ((handle_user_action resp s lab).1.current_step_index = s.current_step_index + 1 ∧
       (handle_user_action resp s lab).2 =
         [ChatEmit.message_received "assistant"
           (advanceMsg (s.current_step_index + 2)
             ((s.task_steps.getD (s.current_step_index + 1) defaultStep).description))])) ∧
    (s.current_step_index + 1 = s.task_steps.length →
      (handle_user_action resp s lab).1.current_step_index = s.current_step_index) ∧
    (strContains (advanceMsg (s.current_step_index + 2)
        ((s.task_steps.getD (s.current_step_index + 1) defaultStep).description))
        ((s.task_steps.getD (s.current_step_index + 1) defaultStep).description) = true) := by
  have hlen : 0 < s.task_steps.length := List.length_pos.mpr hne
  by_cases hadv : s.current_step_index + 1 < s.task_steps.length
  · have hg : s.task_steps ≠ [] ∧ s.current_step_index < s.task_steps.length - 1 :=
      ⟨hne, by omega⟩
    simp only [handle_user_action]
    rw [if_pos hg]
    exact ⟨rfl, hadv, fun _ => ⟨rfl, rfl⟩,
      fun heq => absurd heq (Nat.ne_of_lt hadv),
      strContains_append_right _ _⟩
  · have hg : ¬(s.task_steps ≠ [] ∧ s.current_step_index < s.task_steps.length - 1) := by
      rintro ⟨-, hlt⟩
      omega
    simp only [handle_user_action]
    rw [if_neg hg]
    cases resp with
    | ok g =>
      exact ⟨rfl, hidx, fun h => absurd h hadv, fun _ => rfl, strContains_append_right _ _⟩
    | error e =>
      exact ⟨rfl, hidx, fun h => absurd h hadv, fun _ => rfl, strContains_append_right _ _⟩

/-- A two-step chat state for the C5 witness. -/
def wChat : ChatState :=
  ⟨[], "task", [defaultStep, ⟨2, "click", "target", "second step", "result"⟩], 0, false⟩

/-- C5 witness: from index 0 of a two-step plan, a click advances to index 1. -/
theorem claim5_witness :
    (handle_user_action (Except.ok "g") wChat none).1.current_step_index =
      wChat.current_step_index + 1 :=
  ((claim5_step_advance (Except.ok "g") wChat none (by simp [wChat])
      (by simp [wChat])).2.2.1 (by simp [wChat])).1

/-- C6: whenever the 10-second watchdog fires, the recovery path calls
`hide_all_overlays` before any retry of the detection cycle is scheduled
(for every combination of collaborator failures), and on the non-failing
path it surfaces the recovery notice and re-arms the cycle after exactly a
5000 ms backoff. -/
theorem claim6_timeout_recovery :
    (∀ (hideOk showOk stopHideOk : Bool) (pre post : List MgrEv) (e : MgrEv),
      detection_timeout_recovery_trace hideOk showOk stopHideOk = pre ++ e :: post →
      isRetrySchedule e = true → MgrEv.hide_all_overlays ∈ pre) ∧
    detection_timeout_recovery_trace true true true =
      [MgrEv.hide_all_overlays,
       MgrEv.show_instruction_panel "Detection timed out. Click anywhere to continue.",
       MgrEv.schedule_detection 5000] := by
  constructor
  · intro h1 h2 h3 pre post e htrace hsched
    have hhead : (detection_timeout_recovery_trace h1 h2 h3).head? =
        some MgrEv.hide_all_overlays := by
      unfold detection_timeout_recovery_trace stop_guidance_trace
      cases h1 <;> cases h2 <;> cases h3 <;> rfl
    rw [htrace] at hhead
    cases pre with
    | nil =>
      simp only [List.nil_append, List.head?_cons, Option.some.injEq] at hhead
      rw [hhead] at hsched
      simp [isRetrySchedule] at hsched
    | cons p pre' =>
      simp only [List.cons_append, List.head?_cons, Option.some.injEq] at hhead
      rw [← hhead]
      exact List.mem_cons_self p pre'
  · rfl

/-- C6 witness: in the non-failing trace the 5000 ms retry schedule is
preceded by the hide-all call. -/
theorem claim6_witness :
    MgrEv.hide_all_overlays ∈
      [MgrEv.hide_all_overlays,
       MgrEv.show_instruction_panel "Detection timed out. Click anywhere to continue."] :=
  claim6_timeout_recovery.1 true true true
    [MgrEv.hide_all_overlays,
     MgrEv.show_instruction_panel "Detection timed out. Click anywhere to continue."]
    [] (MgrEv.schedule_detection 5000) rfl rfl

/-- C8: pausing while active and not paused stops the cycle timer and hides
all overlays while leaving the task state (the chat manager's current task,
step list and step index, and the orchestrator's current task) unchanged;
resuming restarts the timer at the currently computed optimal interval,
again without touching task state. -/
theorem claim8_pause_resume (s : AppState)
    (hact : s.is_guidance_active = true) (hp : s.is_paused = false) :
    ((pause_guidance s).1.chat = s.chat) ∧
    ((pause_guidance s).1.current_task = s.current_task) ∧
    ((pause_guidance s).1.detection_timer.running = false) ∧
    ((pause_guidance s).1.detection_timer.interval = s.detection_timer.interval) ∧
    ((pause_guidance s).1.overlays_visible = false) ∧
    ((pause_guidance s).2 = [AppEmit.guidance_paused]) ∧
    ((resume_guidance (pause_guidance s).1).1.chat = s.chat) ∧
    ((resume_guidance (pause_guidance s).1).1.current_task = s.current_task) ∧
    ((resume_guidance (pause_guidance s).1).1.detection_timer =
      ⟨true, get_optimal_detection_interval (pause_guidance s).1⟩) ∧
    ((resume_guidance (pause_guidance s).1).2 = [AppEmit.guidance_resumed]) := by
  have hg : s.is_guidance_active = true ∧ s.is_paused = false := ⟨hact, hp⟩
  simp only [pause_guidance, resume_guidance]
  rw [if_pos hg]
  rw [if_pos (show _ ∧ _ from ⟨hact, rfl⟩)]
  exact ⟨rfl, rfl, rfl, rfl, rfl, rfl, rfl, rfl, rfl, rfl⟩

/-- A concrete running app state for the C8 witness. -/
def wApp : AppState :=
  ⟨"upload a file", true, false, ⟨true, 4000⟩, true, wChat, 6000⟩

/-- C8 witness: pausing the concrete running state emits exactly
`guidance_paused`. -/
theorem claim8_witness : (pause_guidance wApp).2 = [AppEmit.guidance_paused] :=
  (claim8_pause_resume wApp rfl rfl).2.2.2.2.2.1

theorem check_task_readiness_emitted (gen : String → List TaskStep) (s : ChatState)
    (h : s.task_ready_emitted = true) : check_task_readiness gen s = (s, []) := by
  simp [check_task_readiness, h]

theorem countTaskReady_append (l1 l2 : List ChatEmit) :
    countTaskReady (l1 ++ l2) = countTaskReady l1 + countTaskReady l2 := by
  simp [countTaskReady, List.countP_append]

theorem check_task_readiness_shape (gen : String → List TaskStep) (s : ChatState) :
    ((check_task_readiness gen s).1.task_ready_emitted = true ∧
      countTaskReady (check_task_readiness gen s).2 ≤ 1) ∨
    check_task_readiness gen s = (s, []) := by
  simp only [check_task_readiness]
  split_ifs with h1 h2 h3
  · left
    exact ⟨rfl, by simp [countTaskReady]⟩
  · right; rfl
  · right; rfl
  · right; rfl

theorem run_rounds_task_ready_le (gen : String → List TaskStep) :
    ∀ (rounds : List (String × String)) (s : ChatState),
      countTaskReady (run_rounds gen s rounds).2 ≤
        (if s.task_ready_emitted = true then 0 else 1) := by
  intro rounds
  induction rounds with
  | nil => intro s; simp [run_rounds, countTaskReady]
  | cons r rest ih =>
    intro s
    obtain ⟨u, a⟩ := r
    simp only [run_rounds, chat_round]
    set s1 : ChatState := { s with conversation_history :=
      s.conversation_history ++ [⟨"user", u⟩, ⟨"assistant", a⟩] } with hs1
    rw [countTaskReady_append]
    by_cases hs : s.task_ready_emitted = true
    · have hs1e : s1.task_ready_emitted = true := hs
      rw [check_task_readiness_emitted gen s1 hs1e]
      have hih := ih s1
      rw [if_pos hs1e] at hih
      rw [if_pos hs]
      simpa [countTaskReady] using hih
    · rw [if_neg hs]
      rcases check_task_readiness_shape gen s1 with ⟨he, hc⟩ | heq
      · have hih := ih (check_task_readiness gen s1).1
        rw [if_pos he] at hih
        omega
      · rw [heq]
        have hs1e : ¬s1.task_ready_emitted = true := hs
        have hih := ih s1
        rw [if_neg hs1e] at hih
        simpa [countTaskReady] using hih

/-- C10: within one chat session the `task_ready` signal is emitted at most
once — when the guard flag is set, `_check_task_readiness` is a no-op (task,
step list and index unchanged, nothing emitted), and over any sequence of
chat rounds the total number of `task_ready` emissions is at most one. -/
theorem claim10_task_ready_once :
    (∀ (gen : String → List TaskStep) (s : ChatState), s.task_ready_emitted = true →
      check_task_readiness gen s = (s, [])) ∧
    (∀ (gen : String → List TaskStep) (s : ChatState) (rounds : List (String × String)),
      countTaskReady (run_rounds gen s rounds).2 ≤
        (if s.task_ready_emitted = true then 0 else 1)) :=
  ⟨check_task_readiness_emitted,
   fun gen s rounds => run_rounds_task_ready_le gen rounds s⟩

/-- A session state whose guard flag is already set and whose last AI
message contains a ready phrase. -/
def wEmitted : ChatState :=
  ⟨[⟨"user", "please help me upload my resume"⟩, ⟨"assistant", "ready to guide"⟩],
   "t", [], 0, true⟩

/-- C10 witness: with the guard set, a later ready-phrase response changes
nothing and emits nothing. -/
theorem claim10_witness :
    check_task_readiness (fun _ => []) wEmitted = (wEmitted, []) :=
  claim10_task_ready_once.1 (fun _ => []) wEmitted rfl

end TaskAssistant
